import Mathlib

/-!
Verification of the game-of-life simulation engine in
`game_of_life/__main__.py` (class `Game` plus the rule-string parsing in
the `__main__` block).

The lattice (`self.universe`, an `N x N` numpy bool array) is embedded as a
function `Grid := Nat → Nat → Bool`; only the values at indices below the
side length `N` are meaningful, and the stepping code only ever writes
at such indices.  Machine integers are embedded as `Nat`/`Int` (no value
in this program approaches any overflow boundary, and Python ints are
unbounded anyway).
-/

/-- The universe state: cell `(j, i)` (row `j`, column `i`) is alive iff the
function returns `true` there.  Models the numpy bool array `self.universe`. -/
def Grid : Type := Nat → Nat → Bool

/-- The eight toroidal neighbour coordinates of cell `(j, i)` in the order the
source builds them (`neighbors = [N, S, E, W, NW, NE, SW, SE]`,
`Game.update` lines 76-90).  Python's `(j - 1) % N` on the ints produced by
`range(N)` equals `(j + (N - 1)) % N` on naturals (for `j = 0` both give
`N - 1`; for `j ≥ 1` both give `(j - 1) % N`). -/
def neighbors (N j i : Nat) : List (Nat × Nat) :=
  let pure_north := (j + 1) % N
  let pure_south := (j + (N - 1)) % N
  let pure_east := (i + 1) % N
  let pure_west := (i + (N - 1)) % N
  [(pure_north, i), (pure_south, i), (j, pure_east), (j, pure_west),
    (pure_north, pure_west), (pure_north, pure_east),
    (pure_south, pure_west), (pure_south, pure_east)]

/-- `alive_count`: the number of alive cells among the eight neighbour reads,
as the source computes it (`state = [previous_universe[nb] for nb in
neighbors]; alive_count = len([s for s in state if s])`, lines 91-92). -/
def alive_count (N : Nat) (g : Grid) (j i : Nat) : Nat :=
  (((neighbors N j i).map fun nb => g nb.1 nb.2).filter fun s => s).length

/-- The rule evaluation inlined at lines 94-96 of `Game.update`:
`(current_cell and alive_count in self.survive_rule) or
(not current_cell and alive_count in self.birth_rule)`.
The rules are Python lists of ints; `in` is list membership. -/
def next_state (birth_rule survive_rule : List Nat) (current_cell : Bool)
    (n_alive : Nat) : Bool :=
  (current_cell && decide (n_alive ∈ survive_rule)) ||
    (!current_cell && decide (n_alive ∈ birth_rule))

/-- Modelled from the spec: the per-cell next state as a pure function of the
frozen previous lattice (spec section 4.2, step 2).  This is the
order-independent pointwise description the loop embedding
`update_universe` is compared against. -/
def next_universe (N : Nat) (birth_rule survive_rule : List Nat) (g : Grid) :
    Grid :=
  fun j i => next_state birth_rule survive_rule (g j i) (alive_count N g j i)

/-- A single assignment `universe[j, i] = v` into the write buffer. -/
def write_cell (buf : Grid) (j i : Nat) (v : Bool) : Grid :=
  fun j' i' => if j' = j ∧ i' = i then v else buf j' i'

/-- The double loop of `Game.update` (lines 75-96), generalised over the
enumeration order of the cells: starting from the write buffer
`universe = previous.copy()`, each visited cell `(j, i)` is assigned the rule
evaluation of the *previous* universe at `(j, i)` — every read
(`previous_universe[nb]`, `previous_universe[j, i]`) is from the frozen
snapshot, never from the buffer being written. -/
def update_universe_order (N : Nat) (birth_rule survive_rule : List Nat)
    (previous : Grid) (order : List (Nat × Nat)) : Grid :=
  order.foldl
    (fun buf p =>
      write_cell buf p.1 p.2
        (next_state birth_rule survive_rule (previous p.1 p.2)
          (alive_count N previous p.1 p.2)))
    previous

/-- The row-major enumeration `for j in range(N): for i in range(N):`
used by the source. -/
def row_major (N : Nat) : List (Nat × Nat) :=
  (List.range N).flatMap fun j => (List.range N).map fun i => (j, i)

/-- The universe transformation performed by one call of `Game.update`
(lines 71-97): the row-major double loop writing into a copy of the
previous universe. -/
def update_universe (N : Nat) (birth_rule survive_rule : List Nat)
    (previous : Grid) : Grid :=
  update_universe_order N birth_rule survive_rule previous (row_major N)

/-- Claim C1: for every current cell state and every neighbor count in
`[0, 8]`, rule evaluation returns exactly
`(current && n ∈ survive) || (!current && n ∈ birth)`; in particular for
`birth = {3}`, `survive = {2, 3}` (the constructor defaults, lines 33-36):
`next_state false 3 = true`, `next_state true 1 = false`,
`next_state true 2 = true`. -/
theorem rule_evaluation_exact (birth_rule survive_rule : List Nat)
    (current_cell : Bool) (n_alive : Nat) (_hn : n_alive ≤ 8) :
    next_state birth_rule survive_rule current_cell n_alive
        = ((current_cell && decide (n_alive ∈ survive_rule)) ||
            (!current_cell && decide (n_alive ∈ birth_rule)))
    ∧ next_state [3] [2, 3] false 3 = true
    ∧ next_state [3] [2, 3] true 1 = false
    ∧ next_state [3] [2, 3] true 2 = true :=
  ⟨rfl, rfl, rfl, rfl⟩

/-- Witness for C1 at `current = false`, `n_alive = 3`. -/
theorem rule_evaluation_exact_witness :
    (next_state [3] [2, 3] false 3
        = ((false && decide ((3 : Nat) ∈ ([2, 3] : List Nat))) ||
            (!false && decide ((3 : Nat) ∈ ([3] : List Nat)))))
    ∧ next_state [3] [2, 3] false 3 = true
    ∧ next_state [3] [2, 3] true 1 = false
    ∧ next_state [3] [2, 3] true 2 = true :=
  rule_evaluation_exact [3] [2, 3] false 3 (by decide)

/-- The eight Moore-neighbourhood offsets `(dr, dc)` in the order the source
lists the neighbours: N, S, E, W, NW, NE, SW, SE. -/
def moore_offsets : List (Int × Int) :=
  [(1, 0), (-1, 0), (0, 1), (0, -1), (1, -1), (1, 1), (-1, -1), (-1, 1)]

lemma toNat_add_one_emod (N x : Nat) :
    (((x : Int) + 1) % (N : Int)).toNat = (x + 1) % N := by
  have h : ((x : Int) + 1) = ((x + 1 : Nat) : Int) := by push_cast; ring
  rw [h, ← Int.natCast_mod, Int.toNat_natCast]

lemma toNat_sub_one_emod (N x : Nat) (hN : 1 ≤ N) :
    (((x : Int) + -1) % (N : Int)).toNat = (x + (N - 1)) % N := by
  have h1 : ((x : Int) + -1) % (N : Int)
      = ((x : Int) + -1 + (N : Int) * 1) % (N : Int) :=
    (Int.add_mul_emod_self_left _ _ _).symm
  have h2 : ((x : Int) + -1 + (N : Int) * 1) = ((x + (N - 1) : Nat) : Int) := by
    push_cast; omega
  rw [h1, h2, ← Int.natCast_mod, Int.toNat_natCast]

lemma toNat_add_zero_emod (N x : Nat) (hx : x < N) :
    (((x : Int) + 0) % (N : Int)).toNat = x := by
  rw [add_zero, show ((x : Int)) % (N : Int) = ((x % N : Nat) : Int) from
    (Int.natCast_mod x N).symm, Int.toNat_natCast, Nat.mod_eq_of_lt hx]

/-- Claim C2: the step counts alive neighbours over exactly the eight toroidal
coordinates obtained by wrapping `row ± 1` and `col ± 1` modulo `N`: the
neighbour list is the image of the eight Moore offsets under toroidal
wrapping, and `alive_count` counts the alive cells over that list. -/
theorem toroidal_neighbor_coords (N j i : Nat) (hN : 1 ≤ N) (hj : j < N)
    (hi : i < N) :
    neighbors N j i
        = moore_offsets.map (fun d =>
            ((((j : Int) + d.1) % (N : Int)).toNat,
              (((i : Int) + d.2) % (N : Int)).toNat))
    ∧ ∀ g : Grid,
        alive_count N g j i = (neighbors N j i).countP fun nb => g nb.1 nb.2 := by
  constructor
  · simp only [neighbors, moore_offsets, List.map]
    rw [toNat_add_one_emod, toNat_sub_one_emod N j hN, toNat_add_one_emod,
      toNat_sub_one_emod N i hN, toNat_add_zero_emod N j hj,
      toNat_add_zero_emod N i hi]
  · intro g
    rw [alive_count, List.countP_eq_length_filter, List.filter_map,
      List.length_map]
    rfl

/-- Witness for C2 at `N = 4`, cell `(0, 0)`: the neighbour list evaluates to
the toroidal eight, and as a set (order-independent) it is exactly
`{(3,3), (3,0), (3,1), (0,3), (1,3), (0,1), (1,0), (1,1)}`. -/
theorem toroidal_neighbor_coords_witness :
    neighbors 4 0 0 = [(1, 0), (3, 0), (0, 1), (0, 3), (1, 3), (1, 1), (3, 3), (3, 1)]
    ∧ (neighbors 4 0 0).toFinset
        = ({(3, 3), (3, 0), (3, 1), (0, 3), (1, 3), (0, 1), (1, 0), (1, 1)} :
            Finset (Nat × Nat)) := by
  have h := (toroidal_neighbor_coords 4 0 0 (by decide) (by decide) (by decide)).1
  constructor
  · rw [h]; decide
  · rw [h]; decide

lemma foldl_write_get (N : Nat) (birth_rule survive_rule : List Nat)
    (previous : Grid) :
    ∀ (order : List (Nat × Nat)) (buf : Grid) (j i : Nat),
      (order.foldl
        (fun buf2 p =>
          write_cell buf2 p.1 p.2
            (next_state birth_rule survive_rule (previous p.1 p.2)
              (alive_count N previous p.1 p.2)))
        buf) j i
        = if (j, i) ∈ order then
            next_state birth_rule survive_rule (previous j i)
              (alive_count N previous j i)
          else buf j i := by
  intro order
  induction order with
  | nil => intro buf j i; simp
  | cons p rest ih =>
    intro buf j i
    rw [List.foldl_cons, ih]
    by_cases hmem : (j, i) ∈ rest
    · simp [hmem]
    · by_cases hp : (j, i) = p
      · subst hp
        simp [hmem, write_cell]
      · have : ¬(j = p.1 ∧ i = p.2) := by
          intro hc
          exact hp (Prod.ext hc.1 hc.2)
        simp [hmem, write_cell, this, hp]

lemma update_universe_order_get (N : Nat) (birth_rule survive_rule : List Nat)
    (previous : Grid) (order : List (Nat × Nat)) (j i : Nat) :
    update_universe_order N birth_rule survive_rule previous order j i
      = if (j, i) ∈ order then
          next_state birth_rule survive_rule (previous j i)
            (alive_count N previous j i)
        else previous j i :=
  foldl_write_get N birth_rule survive_rule previous order previous j i

lemma mem_row_major (N j i : Nat) : (j, i) ∈ row_major N ↔ j < N ∧ i < N := by
  simp [row_major, List.mem_flatMap, List.mem_map, List.mem_range,
    Prod.mk.injEq]

lemma update_universe_get (N : Nat) (birth_rule survive_rule : List Nat)
    (previous : Grid) (j i : Nat) :
    update_universe N birth_rule survive_rule previous j i
      = if j < N ∧ i < N then
          next_state birth_rule survive_rule (previous j i)
            (alive_count N previous j i)
        else previous j i := by
  rw [update_universe, update_universe_order_get]
  simp only [mem_row_major]

/-- Claim C3: one step computes each cell's new value solely from the frozen
pre-step lattice: visiting the cells in any order that enumerates the lattice
gives the same result as the source's row-major order, and each in-range cell
of the result is exactly the pointwise rule evaluation `next_universe` of the
previous lattice (no read of an already-updated value). -/
theorem step_order_independent (N : Nat) (birth_rule survive_rule : List Nat)
    (previous : Grid) (order : List (Nat × Nat))
    (horder : ∀ p : Nat × Nat, p ∈ order ↔ p.1 < N ∧ p.2 < N) :
    update_universe_order N birth_rule survive_rule previous order
        = update_universe N birth_rule survive_rule previous
    ∧ (∀ j i, j < N → i < N →
        update_universe N birth_rule survive_rule previous j i
          = next_universe N birth_rule survive_rule previous j i)
    ∧ (∀ j i, ¬(j < N ∧ i < N) →
        update_universe N birth_rule survive_rule previous j i = previous j i) := by
  refine ⟨funext fun j => funext fun i => ?_, fun j i hj hi => ?_, fun j i h => ?_⟩
  · rw [update_universe_order_get, update_universe_get]
    simp only [horder (j, i)]
  · rw [update_universe_get]
    simp [hj, hi, next_universe]
  · rw [update_universe_get, if_neg h]

/-- Witness for C3 at `N = 2` with a reversed enumeration order and the
concrete glider-ish grid alive exactly at `(0, 0)` and `(1, 1)`. -/
theorem step_order_independent_witness :
    update_universe_order 2 [3] [2, 3]
        (fun j i => decide (j = i)) [(1, 1), (1, 0), (0, 1), (0, 0)]
      = update_universe 2 [3] [2, 3] (fun j i => decide (j = i)) :=
  (step_order_independent 2 [3] [2, 3] (fun j i => decide (j = i))
    [(1, 1), (1, 0), (0, 1), (0, 0)]
    (by
      rintro ⟨a, b⟩
      simp only [List.mem_cons, List.not_mem_nil, or_false, Prod.mk.injEq]
      omega)).1

/-- The only error path of `Game.__init__`: the `ValueError` raised by the
size check (line 32, "`size` must be an integer power of 2"). -/
inductive GameError : Type
  | invalidSize : GameError
deriving DecidableEq

/-- Is `n` a power of two?  Executable bounded search (`2 ^ k = n` with
`k ≤ n` suffices since `2 ^ k ≥ k + 1`). -/
def pow2_check (n : Nat) : Bool :=
  (List.range (n + 1)).any fun k => n == 2 ^ k

/-- Models the guard `log2(size) % 1 != 0` of `Game.__init__` (line 31) under
exact real-log2 semantics: the guard passes (no raise) iff `size` is positive
and a power of two.  For `size ≤ 0` numpy's `log2` yields `nan`/`-inf`, whose
`% 1` is `nan != 0`, so the constructor raises; for positive `size`, real
`log2` is integral iff `size` is a power of two.  The actual float64 guard
agrees with this model only for small sizes (it deviates above roughly
`2 ^ 49`, e.g. float64 rounds `2 ^ 53 + 1` to `2 ^ 53`, which then passes);
accordingly this model is relied on only at concrete small sizes. -/
def size_guard_ok (size : Int) : Bool :=
  decide (0 < size) && pow2_check size.toNat

/-- The simulation state held by `Game` (rendering and timing attributes —
`fig`, `ax`, `img`, `text`, `text_template`, `fps`, `last_time` — are
presentation/instrumentation state with no bearing on the simulation
semantics and are not modelled).  `univ` models `self.universe` (that word is
a Lean keyword). -/
structure Game : Type where
  generation : Nat
  N : Nat
  visualize : Bool
  birth_rule : List Nat
  survive_rule : List Nat
  univ : Grid

/-- An explicit initial lattice is passed as a row-major list of rows (a bool
ndarray); reading it as a `Grid` pads out-of-range indices with `false`.
`astype(bool)` on an already-bool array is the identity. -/
def grid_of_rows (rows : List (List Bool)) : Grid :=
  fun j i => ((rows.getD j []).getD i false)

/-- The random initial universe
`array([random.random() > threshold for _ in range(size ** 2)]).reshape((size, size))`
(line 38), with the stream of comparison outcomes `random.random() > threshold`
supplied as an oracle `random_bits` (the source draws from `SystemRandom`,
which has no reproducible seed): cell `(j, i)` receives flat index
`j * size + i` under numpy's row-major reshape. -/
def random_grid (size : Nat) (random_bits : Nat → Bool) : Grid :=
  fun j i => random_bits (j * size + i)

/-- Embeds `Game.__init__` (lines 12-65): raise on the size guard, default
`birth_rule = [3]` and `survive_rule = [2, 3]` when `None`, default the
initial universe to the random lattice when `None`, then set
`generation = 1`, `N = size` and the universe.  No validation of the
explicit initial lattice's dimensions is performed anywhere in the
constructor.  The `visualize` branch (lines 47-64) only builds matplotlib
objects and is not modelled. -/
def Game.make (size : Int) (initial_universe : Option (List (List Bool)))
    (birth_rule survive_rule : Option (List Nat)) (visualize : Bool)
    (random_bits : Nat → Bool) : Except GameError Game :=
  if size_guard_ok size then
    .ok
      { generation := 1
        N := size.toNat
        visualize := visualize
        birth_rule := birth_rule.getD [3]
        survive_rule := survive_rule.getD [2, 3]
        univ :=
          match initial_universe with
          | none => random_grid size.toNat random_bits
          | some rows => grid_of_rows rows }
  else
    .error .invalidSize

/-- Embeds `Game.update` (lines 71-114) as a state transformation: the
universe is replaced by the double-buffered step result and
`self.generation += 1` (line 112) runs unconditionally — the
`if self.visualize:` blocks (lines 98-111 and 113-114) only touch rendering
and timing attributes. -/
def Game.update (g : Game) : Game :=
  { g with
    univ := update_universe g.N g.birth_rule g.survive_rule g.univ
    generation := g.generation + 1 }

/-- Claim C4: the generation counter is initialized to 1 at construction, and
after exactly `k` calls of the step operation the generation equals
`initial_generation + k` — each `Game.update` adds exactly 1, for every
state, hence regardless of the visualization mode. -/
theorem generation_counter (size : Int)
    (initial_universe : Option (List (List Bool)))
    (birth_rule survive_rule : Option (List Nat)) (visualize : Bool)
    (random_bits : Nat → Bool) (g0 : Game)
    (hmk : Game.make size initial_universe birth_rule survive_rule visualize
        random_bits = .ok g0)
    (g : Game) (k : Nat) :
    g0.generation = 1
    ∧ (Game.update^[k] g).generation = g.generation + k := by
  constructor
  · rw [Game.make.eq_def] at hmk
    split at hmk
    · cases hmk
      rfl
    · cases hmk
  · induction k with
    | zero => rfl
    | succ m ih =>
      rw [Function.iterate_succ_apply', Game.update]
      simp only [ih]
      omega

/-- Witness for C4: a concrete construction at size 4 has generation 1, and
three updates of that state raise the generation to 4. -/
theorem generation_counter_witness :
    ∃ g0 : Game,
      Game.make 4 (some [[true, false], [false, true]]) none none false
          (fun _ => false) = .ok g0
      ∧ g0.generation = 1
      ∧ (Game.update^[3] g0).generation = g0.generation + 3 := by
  refine ⟨_, rfl, ?_⟩
  exact
    (fun h => ⟨h.1, h.2⟩)
      (generation_counter 4 (some [[true, false], [false, true]]) none none
        false (fun _ => false) _ rfl _ 3)

/-- Counterexample to claim C6: constructing with `size = 8` and an explicit
`4 × 4` initial lattice does NOT fail — `Game.__init__` contains no check of
the initial lattice's dimensions (its only raise is the size guard), so the
construction succeeds. -/
theorem no_dimension_check_counterexample :
    (Game.make 8 (some (List.replicate 4 (List.replicate 4 true))) none none
        true (fun _ => false)).isOk = true := rfl

/-- Claim C6 as amended: construction performs no dimension validation at all —
for every explicit initial lattice (of any dimensions) and every size passing
the power-of-two guard, construction succeeds; a mismatch surfaces only later
as out-of-range indexing inside `update`, never as a construction-time
`DimensionMismatch` error. -/
theorem no_dimension_check (size : Int) (rows : List (List Bool))
    (birth_rule survive_rule : Option (List Nat)) (visualize : Bool)
    (random_bits : Nat → Bool) (hsize : size_guard_ok size = true) :
    (Game.make size (some rows) birth_rule survive_rule visualize
        random_bits).isOk = true := by
  rw [Game.make.eq_def, if_pos hsize]
  rfl

/-- Witness for the amended C6: size 8 with a ragged 2-row lattice is
accepted. -/
theorem no_dimension_check_witness :
    size_guard_ok 8 = true
    ∧ (Game.make 8 (some [[true], [false, true]]) none none false
        (fun _ => false)).isOk = true :=
  ⟨by decide,
    no_dimension_check 8 [[true], [false, true]] none none false
      (fun _ => false) (by decide)⟩

/-- A lattice with exactly one alive cell at the origin. -/
def lone_cell : Grid := fun j i => decide (j = 0 ∧ i = 0)

/-- Claim C10: for the constructor-accepted sizes `N = 1` and `N = 2` the
eight toroidal neighbour coordinates are not pairwise distinct, so the
neighbour count counts cells with multiplicity: for `N = 1` all eight
neighbours of `(0, 0)` are `(0, 0)` itself and a lone live cell sees
`alive_count = 8`; for `N = 2` the three distinct neighbours `(1, 0)`,
`(0, 1)` and the diagonal partner `(1, 1)` are counted 2, 2 and 4 times, and
on an all-alive lattice `alive_count` still reaches 8. -/
theorem small_size_neighbor_multiplicity :
    (Game.make 1 none none none false (fun _ => true)).isOk = true
    ∧ (Game.make 2 none none none false (fun _ => true)).isOk = true
    ∧ neighbors 1 0 0 = List.replicate 8 ((0, 0) : Nat × Nat)
    ∧ alive_count 1 lone_cell 0 0 = 8
    ∧ ¬(neighbors 1 0 0).Nodup
    ∧ (neighbors 2 0 0).count ((1, 0) : Nat × Nat) = 2
    ∧ (neighbors 2 0 0).count ((0, 1) : Nat × Nat) = 2
    ∧ (neighbors 2 0 0).count ((1, 1) : Nat × Nat) = 4
    ∧ ¬(neighbors 2 0 0).Nodup
    ∧ alive_count 2 (fun _ _ => true) 0 0 = 8 := by
  refine ⟨rfl, rfl, ?_, ?_, ?_, ?_, ?_, ?_, ?_, ?_⟩ <;> decide

/-- The two `ValueError` paths of the rule-string parsing in the `__main__`
block (lines 143-147): tuple unpacking of `rulestring.split("/")` into two
names fails unless the split has exactly two parts, and `int(...)` fails on a
character that is not a digit. -/
inductive RuleError : Type
  | unpackMismatch : RuleError
  | notADigit : RuleError
deriving DecidableEq

/-- Python `str.split(sep)` for a one-character separator, keeping empty
parts: `"B3/S23".split("/") == ["B3", "S23"]`, `"B3S23".split("/") ==
["B3S23"]`, `"a//b".split("/") == ["a", "", "b"]`. -/
def py_split (sep : Char) : List Char → List (List Char)
  | [] => [[]]
  | c :: rest =>
    if c = sep then [] :: py_split sep rest
    else
      match py_split sep rest with
      | [] => [[c]]
      | s :: ss => (c :: s) :: ss

/-- Python `str.strip(chars)` for a one-character set: removes every leading
and every trailing occurrence of `c` (`"B3".strip("B") == "3"`,
`"B3B".strip("B") == "3"`). -/
def py_strip (c : Char) (s : List Char) : List Char :=
  ((s.dropWhile fun x => x = c).reverse.dropWhile fun x => x = c).reverse

/-- Python `int(c)` on a one-character string: the digit value for `'0'`-`'9'`
and a `ValueError` otherwise.  (Python's `int` also accepts non-ASCII unicode
digits; rule strings contain none.) -/
def py_int_char (c : Char) : Except RuleError Nat :=
  if c.isDigit then .ok (c.toNat - '0'.toNat) else .error .notADigit

/-- The list comprehension `[int(b) for b in birth_string]` (lines 146-147):
convert every character, propagating the leftmost `ValueError`. -/
def chars_to_ints : List Char → Except RuleError (List Nat)
  | [] => .ok []
  | c :: cs =>
    match py_int_char c, chars_to_ints cs with
    | .ok d, .ok ds => .ok (d :: ds)
    | .error e, _ => .error e
    | .ok _, .error e => .error e

/-- The rule-string parsing of the `__main__` block (lines 143-147):
`birth_string, survive_string = rulestring.split("/")` (raises unless exactly
two parts), then `strip("B")` / `strip("S")`, then per-character `int`. -/
def parse_rulestring (rulestring : List Char) :
    Except RuleError (List Nat × List Nat) :=
  match py_split '/' rulestring with
  | [birth_string, survive_string] =>
    match chars_to_ints (py_strip 'B' birth_string),
        chars_to_ints (py_strip 'S' survive_string) with
    | .ok birth_rule, .ok survive_rule => .ok (birth_rule, survive_rule)
    | .error e, _ => .error e
    | .ok _, .error e => .error e
  | _ => .error .unpackMismatch

/-- The canonical `B<digits>/S<digits>` rule string for two digit lists. -/
def rulestring_chars (bs ss : List Nat) : List Char :=
  'B' :: bs.map Nat.digitChar ++ '/' :: 'S' :: ss.map Nat.digitChar

lemma digitChar_facts (d : Nat) (hd : d ≤ 9) :
    Nat.digitChar d ≠ '/' ∧ Nat.digitChar d ≠ 'B' ∧ Nat.digitChar d ≠ 'S'
      ∧ py_int_char (Nat.digitChar d) = .ok d := by
  interval_cases d <;> exact ⟨by decide, by decide, by decide, rfl⟩

lemma py_split_sep_notin (sep : Char) (l : List Char) (h : sep ∉ l) :
    py_split sep l = [l] := by
  induction l with
  | nil => rfl
  | cons c rest ih =>
    simp only [List.mem_cons, not_or] at h
    rw [py_split, if_neg fun hc => h.1 hc.symm, ih h.2]

lemma py_split_append (sep : Char) (a b : List Char) (ha : sep ∉ a) :
    py_split sep (a ++ sep :: b) = a :: py_split sep b := by
  induction a with
  | nil => simp [py_split]
  | cons c rest ih =>
    simp only [List.mem_cons, not_or] at ha
    rw [List.cons_append, py_split, if_neg fun hc => ha.1 hc.symm, ih ha.2]

lemma dropWhile_eq_self_of_notin (c : Char) (l : List Char) (h : c ∉ l) :
    (l.dropWhile fun x => x = c) = l := by
  cases l with
  | nil => rfl
  | cons x xs =>
    simp only [List.mem_cons, not_or] at h
    rw [List.dropWhile_cons, if_neg (by simp; exact fun hx => h.1 hx.symm)]

lemma py_strip_cons (c : Char) (l : List Char) (h : c ∉ l) :
    py_strip c (c :: l) = l := by
  rw [py_strip, List.dropWhile_cons, if_pos (by simp),
    dropWhile_eq_self_of_notin c l h,
    dropWhile_eq_self_of_notin c l.reverse (by simpa using h),
    List.reverse_reverse]

lemma chars_to_ints_digits (ds : List Nat) (h : ∀ d ∈ ds, d ≤ 9) :
    chars_to_ints (ds.map Nat.digitChar) = .ok ds := by
  induction ds with
  | nil => rfl
  | cons d rest ih =>
    rw [List.map_cons, chars_to_ints,
      (digitChar_facts d (h d (by simp))).2.2.2,
      ih fun x hx => h x (by simp [hx])]

lemma digitChar_notin_map (c : Char) (ds : List Nat) (h : ∀ d ∈ ds, d ≤ 9)
    (hc : ∀ d, d ≤ 9 → Nat.digitChar d ≠ c) : c ∉ ds.map Nat.digitChar := by
  simp only [List.mem_map, not_exists, not_and]
  intro d hd
  exact hc d (h d hd)

lemma parse_rulestring_of_split (s b sv : List Char)
    (h : py_split '/' s = [b, sv]) :
    parse_rulestring s
      = match chars_to_ints (py_strip 'B' b), chars_to_ints (py_strip 'S' sv)
          with
        | .ok birth_rule, .ok survive_rule => .ok (birth_rule, survive_rule)
        | .error e, _ => .error e
        | .ok _, .error e => .error e := by
  rw [parse_rulestring.eq_def, h]

/-- Claim C7: parsing the well-formed rule string `B<digits>/S<digits>` yields
birth and survival rules containing exactly the listed digits — the parsed
lists are the digit lists themselves, so membership (the set view, duplicates
absorbed) matches; the claim's examples `B3/S23` and `B36/S23` are included. -/
theorem rulestring_roundtrip (bs ss : List Nat) (hb : ∀ d ∈ bs, d ≤ 8)
    (hs : ∀ d ∈ ss, d ≤ 8) :
    parse_rulestring (rulestring_chars bs ss) = .ok (bs, ss)
    ∧ (∀ r, parse_rulestring (rulestring_chars bs ss) = .ok r →
        (∀ d, d ∈ r.1 ↔ d ∈ bs) ∧ (∀ d, d ∈ r.2 ↔ d ∈ ss))
    ∧ parse_rulestring ("B3/S23".toList) = .ok ([3], [2, 3])
    ∧ parse_rulestring ("B36/S23".toList) = .ok ([3, 6], [2, 3]) := by
  have hb9 : ∀ d ∈ bs, d ≤ 9 := fun d hd => Nat.le_trans (hb d hd) (by omega)
  have hs9 : ∀ d ∈ ss, d ≤ 9 := fun d hd => Nat.le_trans (hs d hd) (by omega)
  have hmain : parse_rulestring (rulestring_chars bs ss) = .ok (bs, ss) := by
    have hsplit :
        py_split '/' (rulestring_chars bs ss)
          = [('B' :: bs.map Nat.digitChar), ('S' :: ss.map Nat.digitChar)] := by
      rw [show rulestring_chars bs ss
            = ('B' :: bs.map Nat.digitChar) ++ '/' :: ('S' :: ss.map Nat.digitChar)
          from rfl]
      rw [py_split_append '/' _ _ (by
        simp only [List.mem_cons, not_or]
        exact ⟨by decide, digitChar_notin_map '/' bs hb9
          fun d hd => (digitChar_facts d hd).1⟩)]
      rw [py_split_sep_notin '/' _ (by
        simp only [List.mem_cons, not_or]
        exact ⟨by decide, digitChar_notin_map '/' ss hs9
          fun d hd => (digitChar_facts d hd).1⟩)]
    rw [parse_rulestring_of_split _ _ _ hsplit]
    rw [py_strip_cons 'B' _ (digitChar_notin_map 'B' bs hb9
      fun d hd => (digitChar_facts d hd).2.1)]
    rw [py_strip_cons 'S' _ (digitChar_notin_map 'S' ss hs9
      fun d hd => (digitChar_facts d hd).2.2.1)]
    rw [chars_to_ints_digits bs hb9, chars_to_ints_digits ss hs9]
  refine ⟨hmain, ?_, rfl, rfl⟩
  intro r hr
  rw [hmain] at hr
  cases hr
  exact ⟨fun d => Iff.rfl, fun d => Iff.rfl⟩

/-- Witness for C7 at `bs = [3, 6]`, `ss = [2, 3]` (the `B36/S23` example). -/
theorem rulestring_roundtrip_witness :
    parse_rulestring (rulestring_chars [3, 6] [2, 3]) = .ok ([3, 6], [2, 3])
    ∧ (∀ r, parse_rulestring (rulestring_chars [3, 6] [2, 3]) = .ok r →
        (∀ d, d ∈ r.1 ↔ d ∈ ([3, 6] : List Nat))
          ∧ (∀ d, d ∈ r.2 ↔ d ∈ ([2, 3] : List Nat)))
    ∧ parse_rulestring ("B3/S23".toList) = .ok ([3], [2, 3])
    ∧ parse_rulestring ("B36/S23".toList) = .ok ([3, 6], [2, 3]) :=
  rulestring_roundtrip [3, 6] [2, 3] (by decide) (by decide)

/-- Counterexample to claim C8: rule-string parsing accepts digit characters
outside `0`-`8` — `"B9/S23"` parses successfully to `birth = [9]` because
Python's `int` accepts any decimal digit — and it does not require the `B`/`S`
segment letters at all: `"3/23"` also parses successfully. -/
theorem rulestring_digits_counterexample :
    parse_rulestring ("B9/S23".toList) = .ok ([9], [2, 3])
    ∧ parse_rulestring ("3/23".toList) = .ok ([3], [2, 3]) := ⟨rfl, rfl⟩

lemma chars_to_ints_isOk (l : List Char) :
    (chars_to_ints l).isOk = true ↔ ∀ c ∈ l, c.isDigit = true := by
  induction l with
  | nil => simp [chars_to_ints, Except.isOk, Except.toBool]
  | cons c cs ih =>
    rcases hcs : chars_to_ints cs with e | ds <;> rw [hcs] at ih <;>
      by_cases hd : c.isDigit = true <;>
        simp [chars_to_ints, py_int_char, hd, hcs, Except.isOk,
          Except.toBool] at ih ⊢ <;>
        tauto

/-- Claim C8 as amended: parsing fails exactly when the string does not split
on `/` into exactly two parts (tuple-unpacking `ValueError`, e.g. `B3S23`), or
when some character remaining after stripping leading/trailing `B` resp. `S`
from the two parts is not a decimal digit `0`-`9` (`int` `ValueError`, e.g.
`Bx/S23`); the digit range is `0`-`9` (so `9` is accepted) and the presence of
the `B`/`S` letters themselves is never checked. -/
theorem rulestring_error_amended :
    (∀ s : List Char,
      (parse_rulestring s).isOk = true ↔
        ∃ b sv, py_split '/' s = [b, sv]
          ∧ (∀ c ∈ py_strip 'B' b, c.isDigit = true)
          ∧ (∀ c ∈ py_strip 'S' sv, c.isDigit = true))
    ∧ parse_rulestring ("B3S23".toList) = .error .unpackMismatch
    ∧ parse_rulestring ("Bx/S23".toList) = .error .notADigit := by
  refine ⟨?_, rfl, rfl⟩
  intro s
  rcases hsp : py_split '/' s with _ | ⟨b, _ | ⟨sv, _ | ⟨x, tail⟩⟩⟩
  · rw [parse_rulestring.eq_def, hsp]
    simp [Except.isOk, Except.toBool]
  · rw [parse_rulestring.eq_def, hsp]
    simp [Except.isOk, Except.toBool]
  · rw [parse_rulestring_of_split _ _ _ hsp]
    have hred : (∃ b2 sv2, ([b, sv] : List (List Char)) = [b2, sv2]
        ∧ (∀ c ∈ py_strip 'B' b2, c.isDigit = true)
        ∧ (∀ c ∈ py_strip 'S' sv2, c.isDigit = true)) ↔
        ((∀ c ∈ py_strip 'B' b, c.isDigit = true)
          ∧ (∀ c ∈ py_strip 'S' sv, c.isDigit = true)) := by
      constructor
      · rintro ⟨b2, sv2, heq, hd1, hd2⟩
        obtain ⟨h1', h2'⟩ : b = b2 ∧ sv = sv2 := by simpa using heq
        subst h1'
        subst h2'
        exact ⟨hd1, hd2⟩
      · rintro ⟨hd1, hd2⟩
        exact ⟨b, sv, rfl, hd1, hd2⟩
    rw [hred]
    have h1 := chars_to_ints_isOk (py_strip 'B' b)
    have h2 := chars_to_ints_isOk (py_strip 'S' sv)
    rcases hB : chars_to_ints (py_strip 'B' b) with e | bs <;>
      rcases hS : chars_to_ints (py_strip 'S' sv) with e2 | ss2
    · rw [hB] at h1
      constructor
      · intro hc
        exact absurd hc (by simp [Except.isOk, Except.toBool])
      · rintro ⟨ha, -⟩
        exact absurd (h1.mpr ha) (by simp [Except.isOk, Except.toBool])
    · rw [hB] at h1
      constructor
      · intro hc
        exact absurd hc (by simp [Except.isOk, Except.toBool])
      · rintro ⟨ha, -⟩
        exact absurd (h1.mpr ha) (by simp [Except.isOk, Except.toBool])
    · rw [hS] at h2
      constructor
      · intro hc
        exact absurd hc (by simp [Except.isOk, Except.toBool])
      · rintro ⟨-, hb2⟩
        exact absurd (h2.mpr hb2) (by simp [Except.isOk, Except.toBool])
    · rw [hB] at h1
      rw [hS] at h2
      constructor
      · intro hc
        exact ⟨h1.mp rfl, h2.mp rfl⟩
      · intro hc
        rfl
  · rw [parse_rulestring.eq_def, hsp]
    simp [Except.isOk, Except.toBool]

/-- Bool to 0/1 for counting. -/
def b2n (b : Bool) : Nat := cond b 1 0

lemma alive_count_sum (N : Nat) (g : Grid) (j i : Nat) :
    alive_count N g j i
      = b2n (g ((j + 1) % N) i) + b2n (g ((j + (N - 1)) % N) i)
        + b2n (g j ((i + 1) % N)) + b2n (g j ((i + (N - 1)) % N))
        + b2n (g ((j + 1) % N) ((i + (N - 1)) % N))
        + b2n (g ((j + 1) % N) ((i + 1) % N))
        + b2n (g ((j + (N - 1)) % N) ((i + (N - 1)) % N))
        + b2n (g ((j + (N - 1)) % N) ((i + 1) % N)) := by
  simp only [alive_count, neighbors, List.map]
  rcases g ((j + 1) % N) i <;> rcases g ((j + (N - 1)) % N) i <;>
    rcases g j ((i + 1) % N) <;> rcases g j ((i + (N - 1)) % N) <;>
    rcases g ((j + 1) % N) ((i + (N - 1)) % N) <;>
    rcases g ((j + 1) % N) ((i + 1) % N) <;>
    rcases g ((j + (N - 1)) % N) ((i + (N - 1)) % N) <;>
    rcases g ((j + (N - 1)) % N) ((i + 1) % N) <;> rfl

/-- The 2x2 block at the origin: alive exactly on `{0, 1} x {0, 1}`. -/
def block_origin : Grid := fun j i => decide (j ≤ 1) && decide (i ≤ 1)

/-- Indicator of membership in `{0, 1}` (a block row / block column). -/
def ok1 (x : Nat) : Nat := if x ≤ 1 then 1 else 0

lemma b2n_block_origin (p q : Nat) :
    b2n (block_origin p q) = ok1 p * ok1 q := by
  simp only [b2n, block_origin, ok1]
  by_cases hp : p ≤ 1 <;> by_cases hq : q ≤ 1 <;> simp [hp, hq]

lemma ok1_le_one (x : Nat) : ok1 x ≤ 1 := by
  rw [ok1]; split <;> omega

lemma ok1_of_le (x : Nat) (h : x ≤ 1) : ok1 x = 1 := if_pos h

lemma ok1_of_gt (x : Nat) (h : ¬x ≤ 1) : ok1 x = 0 := if_neg h

lemma axis_flags (N x : Nat) (hN : 4 ≤ N) (hx : x < N) :
    ok1 ((x + 1) % N) + ok1 ((x + (N - 1)) % N) ≤ 1
    ∧ (x ≤ 1 → ok1 ((x + 1) % N) + ok1 ((x + (N - 1)) % N) = 1)
    ∧ (¬x ≤ 1 → ok1 ((x + 1) % N) + ok1 ((x + (N - 1)) % N) + ok1 x ≤ 1) := by
  have hn : (x + 1) % N = if x + 1 = N then 0 else x + 1 := by
    split
    · next h => rw [h, Nat.mod_self]
    · next h => exact Nat.mod_eq_of_lt (by omega)
  have hs : (x + (N - 1)) % N = if x = 0 then N - 1 else x - 1 := by
    split
    · next h =>
        subst h
        rw [Nat.zero_add, Nat.mod_eq_of_lt (by omega)]
    · next h =>
        have h2 : x + (N - 1) = N + (x - 1) := by omega
        rw [h2, Nat.add_mod_left, Nat.mod_eq_of_lt (by omega)]
  rw [hn, hs]
  split_ifs <;> simp only [ok1] <;> split_ifs <;> omega

lemma block_step_fixed (N j i : Nat) (hN : 4 ≤ N) (hj : j < N) (hi : i < N) :
    next_state [3] [2, 3] (block_origin j i) (alive_count N block_origin j i)
      = block_origin j i := by
  obtain ⟨hr1, hr2, hr3⟩ := axis_flags N j hN hj
  obtain ⟨hc1, hc2, hc3⟩ := axis_flags N i hN hi
  rw [alive_count_sum]
  simp only [b2n_block_origin]
  rcases Nat.le_one_iff_eq_zero_or_eq_one.mp (ok1_le_one ((j + 1) % N))
      with hA | hA <;>
    rcases Nat.le_one_iff_eq_zero_or_eq_one.mp
        (ok1_le_one ((j + (N - 1)) % N)) with hB | hB <;>
    rcases Nat.le_one_iff_eq_zero_or_eq_one.mp (ok1_le_one ((i + 1) % N))
        with hC | hC <;>
    rcases Nat.le_one_iff_eq_zero_or_eq_one.mp
        (ok1_le_one ((i + (N - 1)) % N)) with hD | hD <;>
    simp only [hA, hB, hC, hD] at hr1 hr2 hr3 hc1 hc2 hc3 ⊢ <;>
    by_cases hj1 : j ≤ 1 <;> by_cases hi1 : i ≤ 1 <;>
    simp [block_origin, ok1, hj1, hi1, next_state] <;>
    omega

/-- Toroidal translation of a lattice: the cell that sits at
`((j + a) % N, (i + b) % N)` is read at `(j, i)`. -/
def torus_translate (N a b : Nat) (g : Grid) : Grid :=
  fun j i => g ((j + a) % N) ((i + b) % N)

lemma mod_add_shift (N x d a : Nat) :
    ((x + d) % N + a) % N = ((x + a) % N + d) % N := by
  rw [Nat.mod_add_mod, Nat.mod_add_mod, Nat.add_right_comm]

lemma alive_count_translate (N a b : Nat) (g : Grid) (j i : Nat) :
    alive_count N (torus_translate N a b g) j i
      = alive_count N g ((j + a) % N) ((i + b) % N) := by
  rw [alive_count_sum, alive_count_sum]
  simp only [torus_translate]
  rw [mod_add_shift N j 1 a, mod_add_shift N j (N - 1) a,
    mod_add_shift N i 1 b, mod_add_shift N i (N - 1) b]

/-- The 2x2 block with lower corner at `(r, c)`, as a toroidal translate of
the origin block: alive exactly on rows `{r, r + 1}` and columns
`{c, c + 1}` modulo `N`. -/
def block_at (N r c : Nat) : Grid :=
  torus_translate N ((N - r % N) % N) ((N - c % N) % N) block_origin

lemma next_universe_block_at (N r c : Nat) (hN : 4 ≤ N) (j i : Nat) :
    next_universe N [3] [2, 3] (block_at N r c) j i = block_at N r c j i := by
  have hN0 : 0 < N := by omega
  rw [next_universe, block_at, alive_count_translate]
  show next_state [3] [2, 3]
      (block_origin ((j + (N - r % N) % N) % N) ((i + (N - c % N) % N) % N))
      (alive_count N block_origin ((j + (N - r % N) % N) % N)
        ((i + (N - c % N) % N) % N))
    = block_origin ((j + (N - r % N) % N) % N) ((i + (N - c % N) % N) % N)
  exact block_step_fixed N _ _ hN (Nat.mod_lt _ hN0) (Nat.mod_lt _ hN0)

lemma update_universe_block_at (N r c : Nat) (hN : 4 ≤ N) :
    update_universe N [3] [2, 3] (block_at N r c) = block_at N r c := by
  funext j i
  rw [update_universe_get]
  by_cases h : j < N ∧ i < N
  · rw [if_pos h]
    exact next_universe_block_at N r c hN j i
  · rw [if_neg h]

/-- Claim C9: under `birth = {3}`, `survive = {2, 3}`, a lattice of size
`N ≥ 4` that is all dead except a single 2x2 block of alive cells (placed
anywhere, with toroidal wraparound) is unchanged by every number `k ≥ 0` of
`Game.update` calls: the block is a fixed point of the step. -/
theorem block_still_life (N r c k : Nat) (hN : 4 ≤ N) (g : Game)
    (hsize : g.N = N) (hb : g.birth_rule = [3]) (hs : g.survive_rule = [2, 3])
    (hu : g.univ = block_at N r c) :
    (Game.update^[k] g).univ = block_at N r c := by
  induction k generalizing g with
  | zero => simpa using hu
  | succ m ih =>
    rw [Function.iterate_succ_apply]
    refine ih (Game.update g) hsize hb hs ?_
    show update_universe g.N g.birth_rule g.survive_rule g.univ
      = block_at N r c
    rw [hsize, hb, hs, hu, update_universe_block_at N r c hN]

/-- Witness for C9 at `N = 4`, block corner `(1, 2)`, two steps. -/
theorem block_still_life_witness :
    (Game.update^[2]
        { generation := 1, N := 4, visualize := false, birth_rule := [3],
          survive_rule := [2, 3], univ := block_at 4 1 2 }).univ
      = block_at 4 1 2 :=
  block_still_life 4 1 2 2 (by decide) _ rfl rfl rfl rfl
